import Mathlib

/-!
Shallow embedding of the doclingserver repository (src/api_server.py and
src/document_analyzer.py) for checking its natural-language specification.

The embedding models:
  * Python path helpers used by the code: the stem of a path
    (pathlib Path.stem: final component, last suffix removed) and string
    containment (the Python in operator on strings);
  * DocumentAnalyzer (document_analyzer.py): its constructor signature,
    statistics collection, and the artifact paths written by _save_tables,
    _save_markdown, _create_summary_report and _save_images.  All writes go
    under the fixed relative directory "output" exactly as in the source;
  * the analyze_document handler (api_server.py): extension validation,
    chunked streaming with the incremental size check, creation of the
    per-job output directory, the constructor call
    DocumentAnalyzer(str(temp_path), output_dir=job_output_dir) with Python
    keyword-argument semantics, the inner try around analyzer.analyze()
    that re-raises as HTTP 500, the outer except Exception that returns an
    in-band failed result, and the finally block that deletes the temp file.

External collaborators (the docling converter output, PyMuPDF page/image
enumeration, the bytes of the upload) enter as parameters; machine wall
clock is not modelled, so processing_time_seconds is fixed to 0 in results.
-/

/-! ## Python string and path helpers -/

/-- Chars of `hay` start with the chars of `pre` (list-level startswith). -/
def startsWithChars : List Char → List Char → Bool
  | [], _ => true
  | _ :: _, [] => false
  | a :: as, b :: bs => a = b && startsWithChars as bs

/-- Python substring containment: `needle in hay` on char lists. -/
def containsChars (needle : List Char) : List Char → Bool
  | [] => needle.isEmpty
  | c :: rest => startsWithChars needle (c :: rest) || containsChars needle rest

/-- Python operator in on strings: `pyIn needle hay` models `needle in hay`. -/
def pyIn (needle hay : String) : Bool := containsChars needle.data hay.data

/-- Python `str.lower()` (character-wise lowering). -/
def strToLower (s : String) : String := String.mk (s.data.map Char.toLower)

/-- Python `str.endswith(suff)`. -/
def strEndsWith (s suff : String) : Bool :=
  startsWithChars suff.data.reverse s.data.reverse

/-- Python `str.startswith(pre)` (also used for glob matching). -/
def strStartsWith (s pre : String) : Bool := startsWithChars pre.data s.data

/-- Test that a char is not the path separator. -/
def notSlash (c : Char) : Bool := c ≠ '/'

/-- Chars after the last slash of a path (the final path component). -/
def lastComp (cs : List Char) : List Char :=
  ((cs.reverse.takeWhile notSlash).reverse)

/-- On a REVERSED name, split at the first dot (the last dot of the name):
returns (reversed extension chars, reversed stem chars), or none if no dot. -/
def revExtSplit : List Char → Option (List Char × List Char)
  | [] => none
  | c :: rest =>
    if c = '.' then some ([], rest)
    else
      match revExtSplit rest with
      | none => none
      | some (ext, stemRev) => some (c :: ext, stemRev)

/-- Case analysis of `nameStem` on the split result. -/
def nameStemCase (name : List Char) : Option (List Char × List Char) → List Char
  | none => name
  | some (extRev, stemRev) =>
    if extRev = [] ∨ stemRev = [] then name else stemRev.reverse

/-- Stem of a file NAME, as pathlib computes it: the name minus its last
suffix, where a suffix exists only if the last dot is neither the first nor
the last character of the name. -/
def nameStem (name : List Char) : List Char :=
  nameStemCase name (revExtSplit name.reverse)

/-- Python `Path(p).stem`: stem of the final component of the path `p`. -/
def pathStem (p : String) : String := String.mk (nameStem (lastComp p.data))

/-! ## Document model (output shape of the external docling converter) -/

/-- One element of `document.texts`; only its label is consumed. -/
structure TextItem where
  label : String
deriving DecidableEq

/-- One element of `document.tables`; `csv` is the text that
`table.export_to_dataframe().to_csv(..., index=False)` would emit. -/
structure TableData where
  csv : String
deriving DecidableEq

/-- The document model fields consumed by DocumentAnalyzer. -/
structure DocModel where
  name : String
  texts : List TextItem
  tables : List TableData
  pictures : List Unit
deriving DecidableEq

/-- One embedded raster image as the PyMuPDF reader reports it:
`doc.extract_image(xref)` yields raw bytes and a format extension. -/
structure PageImage where
  ext : String
  data : String
deriving DecidableEq

/-! ## DocumentAnalyzer (document_analyzer.py) -/

/-- The analyzer object; its only constructor-set datum relevant to path
computation is `pdf_path` (converter/result/doc are runtime state). -/
structure DocumentAnalyzer where
  pdfPath : String
deriving DecidableEq

/-- Parameter names of `DocumentAnalyzer.__init__` besides `self`:
the source signature is `def __init__(self, pdf_path: str)`. -/
def analyzerInitParamNames : List String := ["pdf_path"]

/-- Python call semantics for `DocumentAnalyzer(...)`: a keyword argument
whose name is not a parameter of `__init__` raises TypeError; otherwise the
single positional (or `pdf_path` keyword) argument constructs the object. -/
def analyzerInit (positional : List String) (kwargs : List (String × String)) :
    Except String DocumentAnalyzer :=
  match kwargs.find? (fun kv => !(analyzerInitParamNames.contains kv.1)) with
  | some kv => .error ("__init__() got an unexpected keyword argument " ++ kv.1)
  | none =>
    match positional, kwargs with
    | [p], [] => .ok { pdfPath := p }
    | [_], _ => .error "__init__() got multiple values for argument pdf_path"
    | [], [kv] => .ok { pdfPath := kv.2 }
    | _, _ => .error "__init__() takes 2 positional arguments"

/-- Value of one entry of the statistics dict (string or integer). -/
inductive StatValue where
  | str (s : String)
  | nat (n : Nat)
deriving DecidableEq

/-- Heading test of `_get_statistics`:
`'heading' in t.label.lower() or 'section_header' in t.label.lower()`. -/
def isHeadingLabel (label : String) : Bool :=
  pyIn "heading" (strToLower label) || pyIn "section_header" (strToLower label)

/-- The dict returned by `DocumentAnalyzer._get_statistics`, in insertion
order, for a converted document. -/
def getStatistics (doc : DocModel) : List (String × StatValue) :=
  let headings := doc.texts.filter (fun t => isHeadingLabel t.label)
  [("Document Name", .str doc.name),
   ("Total Text Elements", .nat doc.texts.length),
   ("Total Headings", .nat headings.length),
   ("Total Tables", .nat doc.tables.length),
   ("Total Pictures", .nat doc.pictures.length)]

/-- Loop body of `_save_tables`: `enumerate(self.doc.tables)` starting at
counter `i`, writing `output/{stem}_table_{i+1}.csv` per table. -/
def saveTablesFrom (stem : String) : Nat → List TableData → List (String × String)
  | _, [] => []
  | i, t :: rest =>
    ("output/" ++ stem ++ "_table_" ++ toString (i + 1) ++ ".csv", t.csv)
      :: saveTablesFrom stem (i + 1) rest

/-- Files written by `DocumentAnalyzer._save_tables` (path paired with CSV
content), in document order; the output directory is the fixed `output`. -/
def saveTables (pdfPath : String) (tables : List TableData) : List (String × String) :=
  saveTablesFrom (pathStem pdfPath) 0 tables

/-- Path written by `DocumentAnalyzer._save_markdown`. -/
def markdownFilePath (pdfPath : String) : String :=
  "output/" ++ pathStem pdfPath ++ ".md"

/-- Path written by `DocumentAnalyzer._create_summary_report`. -/
def summaryFilePath (pdfPath : String) : String :=
  "output/" ++ pathStem pdfPath ++ "_summary.json"

/-- Images directory created by `DocumentAnalyzer._save_images`. -/
def imagesDirPath (pdfPath : String) : String :=
  "output/" ++ pathStem pdfPath ++ "_images"

/-- Inner loop of `_save_images`: `enumerate(page.get_images())` from
counter `i` on page index `p` (0-based), writing
`{dir}/page{p+1}_img{i+1}.{ext}` per image. -/
def imageFilesOnPage (dir : String) (p : Nat) : Nat → List PageImage → List String
  | _, [] => []
  | i, img :: rest =>
    (dir ++ "/page" ++ toString (p + 1) ++ "_img" ++ toString (i + 1) ++ "." ++ img.ext)
      :: imageFilesOnPage dir p (i + 1) rest

/-- Outer loop of `_save_images`: `for page_num in range(len(doc))` from
page index `p`, concatenating the per-page files. -/
def saveImagesAux (dir : String) : Nat → List (List PageImage) → List String
  | _, [] => []
  | p, pg :: rest => imageFilesOnPage dir p 0 pg ++ saveImagesAux dir (p + 1) rest

/-- Effects of `DocumentAnalyzer._save_images`: directories it mkdirs and
files it writes.  The image list per page comes from the PyMuPDF reader
(the original PDF), not from the document model. -/
structure ImagesResult where
  dirsCreated : List String
  files : List String
deriving DecidableEq

/-- `DocumentAnalyzer._save_images`: creates `output` and the images
directory unconditionally, then writes one file per embedded image. -/
def saveImages (pdfPath : String) (pages : List (List PageImage)) : ImagesResult :=
  let dir := imagesDirPath pdfPath
  { dirsCreated := ["output", dir], files := saveImagesAux dir 0 pages }

/-- All artifact paths written by `DocumentAnalyzer.analyze`, in program
order: tables, then images, then markdown, then the summary report. -/
def analyzeWrites (pdfPath : String) (doc : DocModel)
    (pages : List (List PageImage)) : List String :=
  (saveTables pdfPath doc.tables).map Prod.fst
    ++ (saveImages pdfPath pages).files
    ++ [markdownFilePath pdfPath]
    ++ [summaryFilePath pdfPath]

/-! ## The analyze_document handler (api_server.py) -/

/-- Configuration read from the environment by api_server.Config. -/
structure Config where
  maxFileSizeMB : Nat
  outputRoot : String
  tempRoot : String
deriving DecidableEq

/-- Size limit in bytes: `Config.MAX_FILE_SIZE_MB * 1024 * 1024`. -/
def sizeLimitBytes (cfg : Config) : Nat := cfg.maxFileSizeMB * 1024 * 1024

/-- Temp path of a job: `Config.TEMP_DIR / f"{job_id}_{file.filename}"`. -/
def tempPath (cfg : Config) (jobId filename : String) : String :=
  cfg.tempRoot ++ "/" ++ jobId ++ "_" ++ filename

/-- Job output directory: `Config.OUTPUT_DIR / job_id`. -/
def jobOutputDir (cfg : Config) (jobId : String) : String :=
  cfg.outputRoot ++ "/" ++ jobId

/-- Outcome of the chunked upload loop: all chunks written, or aborted by
the size check with the bytes already on disk. -/
inductive StreamOutcome where
  | saved (written : Nat)
  | tooLarge (written : Nat)
deriving DecidableEq

/-- Bytes on disk after the loop, in either outcome. -/
def writtenOf : StreamOutcome → Nat
  | .saved w => w
  | .tooLarge w => w

/-- The upload loop of analyze_document: per chunk, add its length to the
running count, raise 413 if the count exceeds the limit, else write the
chunk.  `fs` is the running count, `w` the bytes written so far; chunks are
modelled by their byte lengths. -/
def streamLoop (limit : Nat) : Nat → Nat → List Nat → StreamOutcome
  | _, w, [] => .saved w
  | fs, w, c :: rest =>
    if limit < fs + c then .tooLarge w
    else streamLoop limit (fs + c) (w + c) rest

/-- An upload request: the declared filename and the sizes of the
successive reads of the body (each at most 8192 in the real server). -/
structure UploadRequest where
  filename : String
  chunks : List Nat
deriving DecidableEq

/-- Outcome of the `analyzer.analyze()` call, treated as an external step
(it drives the docling engine); on an exception it may have written some
artifacts already. -/
inductive AnalyzeOutcome where
  | ok
  | raises (msg : String) (partialWrites : List String)
deriving DecidableEq

/-- The results dict assembled on the success path of analyze_document. -/
structure ResultsDict where
  jobId : String
  markdownPath : String
  summaryPath : String
  tables : List String
  imagesDir : String
deriving DecidableEq

/-- The AnalysisResult response model (processing time not modelled: 0). -/
structure AnalysisResult where
  jobId : String
  status : String
  processingTimeSeconds : Nat
  results : Option ResultsDict
  error : Option String
deriving DecidableEq

/-- What the caller receives: a transport-level HTTP error (from a raised
HTTPException) or an in-band AnalysisResult with 200. -/
inductive HandlerResponse where
  | httpError (status : Nat) (detail : String)
  | result (r : AnalysisResult)
deriving DecidableEq

/-- Observable outcome of one request: the response plus the filesystem
effects the claims talk about. -/
structure HandlerOutcome where
  response : HandlerResponse
  tempFileCreated : Bool
  tempFileFinal : Bool
  tempBytesWritten : Nat
  outputDirCreated : Bool
  analysisAttempted : Bool
  artifactWrites : List String
deriving DecidableEq

/-- analyze_document before its finally block (tempFileFinal is therefore
set to tempFileCreated here; the finally is applied by analyzeDocument).
Mirrors api_server.py lines 260-353: extension check, streamed save with
incremental size check, job output dir creation, the constructor call with
the output_dir keyword, the inner try re-raising analyze() errors as HTTP
500, the outer except Exception returning an in-band failed result. -/
def analyzeDocumentCore (cfg : Config) (jobId : String) (req : UploadRequest)
    (ao : AnalyzeOutcome) (doc : DocModel) (pages : List (List PageImage)) :
    HandlerOutcome :=
  if strEndsWith (strToLower req.filename) ".pdf" = true then
    let temp := tempPath cfg jobId req.filename
    match streamLoop (sizeLimitBytes cfg) 0 0 req.chunks with
    | .tooLarge written =>
      { response := .httpError 413
          ("File size exceeds " ++ toString cfg.maxFileSizeMB ++ "MB limit")
        tempFileCreated := true, tempFileFinal := true
        tempBytesWritten := written
        outputDirCreated := false, analysisAttempted := false
        artifactWrites := [] }
    | .saved written =>
      match analyzerInit [temp] [("output_dir", jobOutputDir cfg jobId)] with
      | .error msg =>
        { response := .result
            { jobId := jobId, status := "failed", processingTimeSeconds := 0
              results := none, error := some msg }
          tempFileCreated := true, tempFileFinal := true
          tempBytesWritten := written
          outputDirCreated := true, analysisAttempted := false
          artifactWrites := [] }
      | .ok analyzer =>
        match ao with
        | .raises msg partialWrites =>
          { response := .httpError 500 ("Document analysis failed: " ++ msg)
            tempFileCreated := true, tempFileFinal := true
            tempBytesWritten := written
            outputDirCreated := true, analysisAttempted := true
            artifactWrites := partialWrites }
        | .ok =>
          let stem := pathStem analyzer.pdfPath
          let jobDir := jobOutputDir cfg jobId
          let writes := analyzeWrites analyzer.pdfPath doc pages
          { response := .result
              { jobId := jobId, status := "completed", processingTimeSeconds := 0
                results := some
                  { jobId := jobId
                    markdownPath := jobDir ++ "/" ++ stem ++ ".md"
                    summaryPath := jobDir ++ "/" ++ stem ++ "_summary.json"
                    tables := writes.filter (fun p =>
                      strStartsWith p (jobDir ++ "/" ++ stem ++ "_table_")
                        && strEndsWith p ".csv")
                    imagesDir := jobDir ++ "/" ++ stem ++ "_images" }
                error := none }
            tempFileCreated := true, tempFileFinal := true
            tempBytesWritten := written
            outputDirCreated := true, analysisAttempted := true
            artifactWrites := writes }
  else
    { response := .httpError 400 "Only PDF files are supported"
      tempFileCreated := false, tempFileFinal := false
      tempBytesWritten := 0
      outputDirCreated := false, analysisAttempted := false
      artifactWrites := [] }

/-- analyze_document including its finally block: the temp file, if it was
created, is unlinked; `unlinkOk` is whether the unlink succeeds (a failure
is only logged).  The response is whatever the body produced. -/
def analyzeDocument (cfg : Config) (jobId : String) (req : UploadRequest)
    (ao : AnalyzeOutcome) (doc : DocModel) (pages : List (List PageImage))
    (unlinkOk : Bool) : HandlerOutcome :=
  let out := analyzeDocumentCore cfg jobId req ao doc pages
  { out with tempFileFinal := out.tempFileCreated && !unlinkOk }

/-! ## Concrete sample values used by closed theorems -/

/-- A concrete configuration (the source defaults). -/
def cfgEx : Config :=
  { maxFileSizeMB := 100, outputRoot := "/app/data/output", tempRoot := "/app/data/temp" }

/-- A concrete document model: two text elements (one section header), one
table, one picture. -/
def docEx : DocModel :=
  { name := "Doc"
    texts := [{ label := "section_header" }, { label := "paragraph" }]
    tables := [{ csv := "a,b" }]
    pictures := [()] }

/-- A concrete PDF image listing: one png on page one, none on page two. -/
def pagesEx : List (List PageImage) :=
  [[{ ext := "png", data := "imgbytes" }], []]

/-- A configuration whose upload size limit is zero bytes. -/
def cfg0 : Config :=
  { maxFileSizeMB := 0, outputRoot := "/app/data/output", tempRoot := "/app/data/temp" }

/-- Case-insensitive substring containment, stated from the spec's words:
the label contains the needle once both are lowercased. -/
def containsCaseInsensitive (hay needle : String) : Bool :=
  containsChars (strToLower needle).data (strToLower hay).data

/-! ## Helper lemmas: paths -/

/-- The chars of an appended string are the appended char lists. -/
theorem strDataAppend (s t : String) : (s ++ t).data = s.data ++ t.data := by
  cases s
  cases t
  rfl

/-- Strings with the same chars are equal. -/
theorem strExtHelper {s t : String} (h : s.data = t.data) : s = t := by
  cases s
  cases t
  exact congrArg String.mk h

/-- takeWhile of a slash-free list followed by a slash keeps exactly the
slash-free part. -/
theorem takeWhile_until_slash {l : List Char} (h : ('/' : Char) ∉ l) :
    ∀ r : List Char, (l ++ '/' :: r).takeWhile notSlash = l := by
  induction l with
  | nil => intro r; simp [List.takeWhile, notSlash]
  | cons c rest ih =>
    intro r
    have hc : notSlash c = true := by
      simp only [notSlash, ne_eq, decide_not, Bool.not_eq_true', decide_eq_false_iff_not]
      intro hcs
      exact h (by simp [hcs])
    have hrest : ('/' : Char) ∉ rest := fun hm => h (List.mem_cons_of_mem _ hm)
    simp only [List.cons_append, List.takeWhile, hc]
    exact congrArg (List.cons c) (ih hrest r)

/-- A path without slashes is its own final component. -/
theorem lastComp_no_slash {ys : List Char} (h : ('/' : Char) ∉ ys) :
    lastComp ys = ys := by
  have hall : ∀ c ∈ ys.reverse, notSlash c = true := by
    intro c hc
    simp only [notSlash, ne_eq, decide_not, Bool.not_eq_true', decide_eq_false_iff_not]
    intro hcs
    subst hcs
    exact h (List.mem_reverse.mp hc)
  rw [lastComp, List.takeWhile_eq_self_iff.mpr hall, List.reverse_reverse]

/-- The final component of a path is what follows its last slash. -/
theorem lastComp_append {ys : List Char} (h : ('/' : Char) ∉ ys) :
    ∀ xs : List Char, lastComp (xs ++ '/' :: ys) = ys := by
  intro xs
  have hrev : (xs ++ '/' :: ys).reverse = ys.reverse ++ '/' :: xs.reverse := by
    simp
  have hys : ('/' : Char) ∉ ys.reverse := fun hm => h (List.mem_reverse.mp hm)
  rw [lastComp, hrev, takeWhile_until_slash hys, List.reverse_reverse]

/-- Splitting a reversed name that ends (unreversed) in dot p d f. -/
theorem revExtSplit_pdf (rs : List Char) :
    revExtSplit ('f' :: 'd' :: 'p' :: '.' :: rs) = some (['f', 'd', 'p'], rs) := rfl

/-- The pathlib stem of a name of the form stem dot p d f. -/
theorem nameStem_pdf {zs : List Char} (h : zs ≠ []) :
    nameStem (zs ++ ['.', 'p', 'd', 'f']) = zs := by
  have hrev : (zs ++ ['.', 'p', 'd', 'f']).reverse = 'f' :: 'd' :: 'p' :: '.' :: zs.reverse := by
    simp
  have hne : ¬((['f', 'd', 'p'] : List Char) = [] ∨ zs.reverse = []) := by
    rintro (h1 | h2)
    · cases h1
    · exact h (by simpa using h2)
  rw [nameStem, hrev, revExtSplit_pdf]
  simp only [nameStemCase, if_neg hne, List.reverse_reverse]

/-! ## Helper lemmas: the upload stream loop -/

/-- Bytes on disk never exceed the limit: the size check runs before each
chunk is written, so only chunks that keep the count within the limit are
written. -/
theorem streamLoop_written_le (limit : Nat) :
    ∀ (chunks : List Nat) (fs w : Nat), w ≤ fs → w ≤ limit →
      writtenOf (streamLoop limit fs w chunks) ≤ limit := by
  intro chunks
  induction chunks with
  | nil => intro fs w _ h2; simpa [streamLoop, writtenOf] using h2
  | cons c rest ih =>
    intro fs w h1 h2
    by_cases hc : limit < fs + c
    · simp only [streamLoop, if_pos hc, writtenOf]
      exact h2
    · simp only [streamLoop, if_neg hc]
      exact ih (fs + c) (w + c) (by omega) (by omega)

/-- Bytes on disk are always the sum of a prefix of the chunk sizes: whole
chunks are written, and the chunk that trips the limit is discarded. -/
theorem streamLoop_written_take (limit : Nat) :
    ∀ (chunks : List Nat) (fs w : Nat),
      ∃ k, writtenOf (streamLoop limit fs w chunks) = w + (chunks.take k).sum := by
  intro chunks
  induction chunks with
  | nil => intro fs w; exact ⟨0, by simp [streamLoop, writtenOf]⟩
  | cons c rest ih =>
    intro fs w
    by_cases hc : limit < fs + c
    · exact ⟨0, by simp [streamLoop, if_pos hc, writtenOf]⟩
    · obtain ⟨k, hk⟩ := ih (fs + c) (w + c)
      refine ⟨k + 1, ?_⟩
      simp only [streamLoop, if_neg hc, List.take_succ_cons, List.sum_cons]
      omega

/-- If some prefix of the chunks exceeds the limit, the loop aborts. -/
theorem streamLoop_overflow (limit : Nat) :
    ∀ (chunks : List Nat) (fs w : Nat), fs ≤ limit →
      (∃ k, limit < fs + (chunks.take k).sum) →
      ∃ w2, streamLoop limit fs w chunks = .tooLarge w2 := by
  intro chunks
  induction chunks with
  | nil =>
    intro fs w hfs hover
    obtain ⟨k, hk⟩ := hover
    simp at hk
    omega
  | cons c rest ih =>
    intro fs w hfs hover
    by_cases hc : limit < fs + c
    · exact ⟨w, by simp [streamLoop, if_pos hc]⟩
    · obtain ⟨k, hk⟩ := hover
      cases k with
      | zero => simp at hk; omega
      | succ j =>
        simp only [List.take_succ_cons, List.sum_cons] at hk
        have : ∃ k, limit < (fs + c) + (rest.take k).sum := ⟨j, by omega⟩
        obtain ⟨w2, hw2⟩ := ih (fs + c) (w + c) (by omega) this
        exact ⟨w2, by simp only [streamLoop, if_neg hc]; exact hw2⟩

/-! ## Helper lemmas: the handler branches -/

/-- The constructor call in the handler always raises TypeError: the
output_dir keyword is not a parameter of DocumentAnalyzer.__init__. -/
theorem analyzerInit_output_dir (p d : String) :
    analyzerInit [p] [("output_dir", d)] =
      .error "__init__() got an unexpected keyword argument output_dir" := rfl

/-- Handler body on an invalid extension: a 400 with no side effects. -/
theorem core_invalid (cfg : Config) (jobId : String) (req : UploadRequest)
    (ao : AnalyzeOutcome) (doc : DocModel) (pages : List (List PageImage))
    (h : strEndsWith (strToLower req.filename) ".pdf" = false) :
    analyzeDocumentCore cfg jobId req ao doc pages =
      { response := .httpError 400 "Only PDF files are supported"
        tempFileCreated := false, tempFileFinal := false, tempBytesWritten := 0
        outputDirCreated := false, analysisAttempted := false, artifactWrites := [] } := by
  unfold analyzeDocumentCore
  rw [h]
  simp

/-- Handler body when the size check trips: a 413, no output directory,
no analysis. -/
theorem core_tooLarge (cfg : Config) (jobId : String) (req : UploadRequest)
    (ao : AnalyzeOutcome) (doc : DocModel) (pages : List (List PageImage)) (w : Nat)
    (hExt : strEndsWith (strToLower req.filename) ".pdf" = true)
    (hs : streamLoop (sizeLimitBytes cfg) 0 0 req.chunks = .tooLarge w) :
    analyzeDocumentCore cfg jobId req ao doc pages =
      { response := .httpError 413
          ("File size exceeds " ++ toString cfg.maxFileSizeMB ++ "MB limit")
        tempFileCreated := true, tempFileFinal := true, tempBytesWritten := w
        outputDirCreated := false, analysisAttempted := false, artifactWrites := [] } := by
  unfold analyzeDocumentCore
  rw [hExt, hs]
  rfl

/-- Handler body when the upload saves in full: the constructor call raises
TypeError, the outer except turns it into an in-band failed result. -/
theorem core_saved (cfg : Config) (jobId : String) (req : UploadRequest)
    (ao : AnalyzeOutcome) (doc : DocModel) (pages : List (List PageImage)) (w : Nat)
    (hExt : strEndsWith (strToLower req.filename) ".pdf" = true)
    (hs : streamLoop (sizeLimitBytes cfg) 0 0 req.chunks = .saved w) :
    analyzeDocumentCore cfg jobId req ao doc pages =
      { response := .result
          { jobId := jobId, status := "failed", processingTimeSeconds := 0
            results := none
            error := some "__init__() got an unexpected keyword argument output_dir" }
        tempFileCreated := true, tempFileFinal := true, tempBytesWritten := w
        outputDirCreated := true, analysisAttempted := false, artifactWrites := [] } := by
  unfold analyzeDocumentCore
  rw [hExt, hs]
  rfl

/-! ## Claim theorems: statistics, tables, images -/

/-- C7 (confirmed): for every document model the statistics collector
returns exactly the five aggregates, in order: document name, text-element
count, heading count, table count, picture count; and a text element counts
as a heading exactly when its label contains the substring heading or
section_header case-insensitively.  The collector is a pure function of the
document model (no I/O). -/
theorem statistics_five_aggregates (doc : DocModel) :
    getStatistics doc =
      [("Document Name", .str doc.name),
       ("Total Text Elements", .nat doc.texts.length),
       ("Total Headings", .nat (doc.texts.countP (fun t => isHeadingLabel t.label))),
       ("Total Tables", .nat doc.tables.length),
       ("Total Pictures", .nat doc.pictures.length)]
    ∧ ∀ label : String,
        isHeadingLabel label =
          (containsCaseInsensitive label "heading"
            || containsCaseInsensitive label "section_header") := by
  constructor
  · simp [getStatistics, List.countP_eq_length_filter]
  · intro label
    have h1 : strToLower "heading" = "heading" := by decide
    have h2 : strToLower "section_header" = "section_header" := by decide
    simp [isHeadingLabel, containsCaseInsensitive, pyIn, h1, h2]

/-- Table paths produced from counter `n` are the 1-based continuation. -/
theorem saveTablesFrom_map_fst (stem : String) :
    ∀ (ts : List TableData) (n : Nat),
      (saveTablesFrom stem n ts).map Prod.fst =
        (List.range ts.length).map
          (fun i => "output/" ++ stem ++ "_table_" ++ toString (n + i + 1) ++ ".csv") := by
  intro ts
  induction ts with
  | nil => intro n; rfl
  | cons t rest ih =>
    intro n
    simp only [saveTablesFrom, List.map_cons, List.length_cons]
    rw [List.range_succ_eq_map, List.map_cons, List.map_map, ih (n + 1)]
    refine congrArg₂ List.cons (by simp) ?_
    apply List.map_congr_left
    intro i _
    have harith : n + 1 + i + 1 = n + (i + 1) + 1 := by omega
    simp [Function.comp, harith]

/-- C8 (confirmed): for every document model the table exporter writes one
CSV per table, in document order, named stem underscore table underscore
ordinal dot csv with the ordinal 1-based; an empty tables sequence writes
no files and is not an error. -/
theorem tables_one_csv_per_table (pdfPath : String) (tables : List TableData) :
    (saveTables pdfPath tables).map Prod.fst =
      (List.range tables.length).map
        (fun i => "output/" ++ pathStem pdfPath ++ "_table_" ++ toString (i + 1) ++ ".csv")
    ∧ (tables = [] → saveTables pdfPath tables = []) := by
  constructor
  · have h := saveTablesFrom_map_fst (pathStem pdfPath) tables 0
    simpa [saveTables] using h
  · rintro rfl
    rfl

/-- Per-page image files are the enumerated 1-based names. -/
theorem imageFilesOnPage_eq (dir : String) (p : Nat) :
    ∀ (imgs : List PageImage) (i : Nat),
      imageFilesOnPage dir p i imgs =
        (List.enumFrom i imgs).map (fun im =>
          dir ++ "/page" ++ toString (p + 1) ++ "_img" ++ toString (im.1 + 1)
            ++ "." ++ im.2.ext) := by
  intro imgs
  induction imgs with
  | nil => intro i; rfl
  | cons img rest ih =>
    intro i
    simp only [imageFilesOnPage, List.enumFrom, List.map_cons]
    rw [ih (i + 1)]

/-- Per-page image file count equals the page's image count. -/
theorem imageFilesOnPage_length (dir : String) (p : Nat) :
    ∀ (imgs : List PageImage) (i : Nat),
      (imageFilesOnPage dir p i imgs).length = imgs.length := by
  intro imgs
  induction imgs with
  | nil => intro i; rfl
  | cons img rest ih =>
    intro i
    simp only [imageFilesOnPage, List.length_cons, ih (i + 1)]

/-- The page loop concatenates the per-page files in page order. -/
theorem saveImagesAux_eq (dir : String) :
    ∀ (pages : List (List PageImage)) (p : Nat),
      saveImagesAux dir p pages =
        ((List.enumFrom p pages).map (fun pg =>
          (pg.2.enum).map (fun im =>
            dir ++ "/page" ++ toString (pg.1 + 1) ++ "_img" ++ toString (im.1 + 1)
              ++ "." ++ im.2.ext))).flatten := by
  intro pages
  induction pages with
  | nil => intro p; rfl
  | cons pg rest ih =>
    intro p
    simp only [saveImagesAux, List.enumFrom, List.map_cons, List.flatten]
    rw [ih (p + 1), imageFilesOnPage_eq dir p pg 0]
    rfl

/-- Total image file count is the sum over pages. -/
theorem saveImagesAux_length (dir : String) :
    ∀ (pages : List (List PageImage)) (p : Nat),
      (saveImagesAux dir p pages).length = (pages.map List.length).sum := by
  intro pages
  induction pages with
  | nil => intro p; rfl
  | cons pg rest ih =>
    intro p
    simp only [saveImagesAux, List.length_append, List.map_cons, List.sum_cons,
      imageFilesOnPage_length, ih (p + 1)]

/-- C9 (confirmed): the image exporter consumes the page/image listing of
the raw PDF (not the document model), always creates the images directory,
and writes one file per embedded image at
page followed by the 1-based page number, underscore img, the 1-based index
within the page, dot, extension -- pages in order, images in reader order. -/
theorem images_layout (pdfPath : String) (pages : List (List PageImage)) :
    imagesDirPath pdfPath ∈ (saveImages pdfPath pages).dirsCreated
    ∧ (saveImages pdfPath pages).files.length = (pages.map List.length).sum
    ∧ (saveImages pdfPath pages).files =
        ((pages.enum).map (fun pg =>
          (pg.2.enum).map (fun im =>
            imagesDirPath pdfPath ++ "/page" ++ toString (pg.1 + 1) ++ "_img"
              ++ toString (im.1 + 1) ++ "." ++ im.2.ext))).flatten := by
  refine ⟨?_, ?_, ?_⟩
  · simp [saveImages]
  · simp [saveImages, saveImagesAux_length]
  · simp only [saveImages]
    rw [saveImagesAux_eq]
    rfl

/-! ## Claim theorems: artifact naming (C2) -/

/-- The stem of a job's temp path is the job id, an underscore, and the
source stem: the job id leaks into every artifact name. -/
theorem pathStem_tempPath (cfg : Config) (jobId base : String)
    (hJ : ('/' : Char) ∉ jobId.data) (hB : ('/' : Char) ∉ base.data) :
    pathStem (tempPath cfg jobId (base ++ ".pdf")) = jobId ++ "_" ++ base := by
  have hdata : (tempPath cfg jobId (base ++ ".pdf")).data
      = cfg.tempRoot.data ++ '/' :: (jobId.data ++ '_' :: (base.data ++ ['.', 'p', 'd', 'f'])) := by
    simp [tempPath, strDataAppend]
  have hys : ('/' : Char) ∉ jobId.data ++ '_' :: (base.data ++ ['.', 'p', 'd', 'f']) := by
    intro hmem
    rcases List.mem_append.mp hmem with h1 | h2
    · exact hJ h1
    · rcases List.mem_cons.mp h2 with h3 | h4
      · exact absurd h3 (by decide)
      · rcases List.mem_append.mp h4 with h5 | h6
        · exact hB h5
        · exact absurd h6 (by decide)
  have hassoc : jobId.data ++ '_' :: (base.data ++ ['.', 'p', 'd', 'f'])
      = (jobId.data ++ '_' :: base.data) ++ ['.', 'p', 'd', 'f'] := by
    simp
  have hzs : jobId.data ++ '_' :: base.data ≠ [] := by
    intro hnil
    exact absurd (List.append_eq_nil.mp hnil).2 (by simp)
  apply strExtHelper
  rw [pathStem, hdata, lastComp_append hys, hassoc, nameStem_pdf hzs,
    strDataAppend, strDataAppend]
  simp

/-- C2 counterexample: with job id j1 and source filename report.pdf the
artifact stem is j1_report, not report, and the markdown artifact is
written at output/j1_report.md, not at the job directory report.md. -/
theorem naming_stem_counterexample :
    pathStem (tempPath cfgEx "j1" "report.pdf") ≠ "report"
    ∧ markdownFilePath (tempPath cfgEx "j1" "report.pdf")
        ≠ jobOutputDir cfgEx "j1" ++ "/" ++ "report" ++ ".md"
    ∧ markdownFilePath (tempPath cfgEx "j1" "report.pdf") = "output/j1_report.md"
    ∧ summaryFilePath (tempPath cfgEx "j1" "report.pdf")
        = "output/j1_report_summary.json" := by
  refine ⟨?_, ?_, ?_, ?_⟩ <;> decide

/-- C2 (corrected): the markdown and summary artifact names are derived
from the TEMP file's stem, which is the job id, an underscore, and the
source filename stem -- so they depend on the job id -- and they are
written under the fixed directory output, not the job's output directory. -/
theorem markdown_summary_naming_amended (cfg : Config) (jobId base : String)
    (hJ : ('/' : Char) ∉ jobId.data) (hB : ('/' : Char) ∉ base.data) :
    markdownFilePath (tempPath cfg jobId (base ++ ".pdf"))
      = "output/" ++ (jobId ++ "_" ++ base) ++ ".md"
    ∧ summaryFilePath (tempPath cfg jobId (base ++ ".pdf"))
      = "output/" ++ (jobId ++ "_" ++ base) ++ "_summary.json" := by
  have hstem := pathStem_tempPath cfg jobId base hJ hB
  constructor
  · rw [markdownFilePath, hstem]
  · rw [summaryFilePath, hstem]

/-- C2 witness: the amended naming at a concrete job id and source stem. -/
theorem markdown_summary_naming_amended_witness :
    (('/' : Char) ∉ "j1".data) ∧ (('/' : Char) ∉ "report".data)
    ∧ markdownFilePath (tempPath cfgEx "j1" ("report" ++ ".pdf"))
        = "output/" ++ ("j1" ++ "_" ++ "report") ++ ".md" :=
  ⟨by decide, by decide,
    (markdown_summary_naming_amended cfgEx "j1" "report" (by decide) (by decide)).1⟩

/-! ## Claim theorems: the analyze_document handler -/

/-- C1 (code_bug, evaluation at the failing input): an accepted upload of
report.pdf creates the job output directory but then fails in-band with the
TypeError from the constructor call (output_dir is not a parameter of
DocumentAnalyzer.__init__), so no artifact is written under the job
directory; and the artifact paths DocumentAnalyzer itself would write all
lie under the fixed shared directory output, none under the job's
directory. -/
theorem artifacts_not_under_job_dir_code_bug :
    ((analyzeDocument cfgEx "j1" { filename := "report.pdf", chunks := [3] }
        .ok docEx pagesEx true).response
      = .result { jobId := "j1", status := "failed", processingTimeSeconds := 0,
                  results := none,
                  error := some "__init__() got an unexpected keyword argument output_dir" })
    ∧ (analyzeDocument cfgEx "j1" { filename := "report.pdf", chunks := [3] }
        .ok docEx pagesEx true).artifactWrites = []
    ∧ (analyzeDocument cfgEx "j1" { filename := "report.pdf", chunks := [3] }
        .ok docEx pagesEx true).outputDirCreated = true
    ∧ (analyzeWrites (tempPath cfgEx "j1" "report.pdf") docEx pagesEx).all
        (fun p => strStartsWith p "output/") = true
    ∧ (analyzeWrites (tempPath cfgEx "j1" "report.pdf") docEx pagesEx).all
        (fun p => !(strStartsWith p (jobOutputDir cfgEx "j1"))) = true := by
  refine ⟨?_, ?_, ?_, ?_, ?_⟩ <;> decide

/-- C3 (confirmed): once an upload is accepted (valid extension, streamed
within the size limit), the caller always receives the in-band result
descriptor with the job id, status failed, a processing time and an error
message, with a success-class transport status -- never a transport-level
error.  (It holds because the constructor call raises before the conversion
engine can run; an error raised by analyzer.analyze() itself would be
re-raised as a transport-level 500, but that call is unreachable.) -/
theorem pipeline_error_reported_in_band (cfg : Config) (jobId : String)
    (req : UploadRequest) (ao : AnalyzeOutcome) (doc : DocModel)
    (pages : List (List PageImage)) (unlinkOk : Bool) (w : Nat)
    (hExt : strEndsWith (strToLower req.filename) ".pdf" = true)
    (hs : streamLoop (sizeLimitBytes cfg) 0 0 req.chunks = .saved w) :
    ∃ e, (analyzeDocument cfg jobId req ao doc pages unlinkOk).response =
      .result { jobId := jobId, status := "failed", processingTimeSeconds := 0,
                results := none, error := some e } := by
  refine ⟨"__init__() got an unexpected keyword argument output_dir", ?_⟩
  have hcore := core_saved cfg jobId req ao doc pages w hExt hs
  simp [analyzeDocument, hcore]

/-- C3 witness: a concrete accepted upload yields the in-band failed
descriptor. -/
theorem pipeline_error_reported_in_band_witness :
    (strEndsWith (strToLower "report.pdf") ".pdf" = true)
    ∧ (streamLoop (sizeLimitBytes cfgEx) 0 0 [3] = .saved 3)
    ∧ ∃ e, (analyzeDocument cfgEx "j1" { filename := "report.pdf", chunks := [3] }
        .ok docEx pagesEx true).response =
      .result { jobId := "j1", status := "failed", processingTimeSeconds := 0,
                results := none, error := some e } :=
  ⟨by decide, by decide,
    pipeline_error_reported_in_band cfgEx "j1"
      { filename := "report.pdf", chunks := [3] } .ok docEx pagesEx true 3
      (by decide) (by decide)⟩

/-- C4 (confirmed): a declared filename that does not end in .pdf
(case-insensitively) is rejected with a 400 validation error before any
file I/O: no temp file is created, no bytes are written, no output
directory is created, and no analysis is attempted. -/
theorem invalid_extension_rejected_before_io (cfg : Config) (jobId : String)
    (req : UploadRequest) (ao : AnalyzeOutcome) (doc : DocModel)
    (pages : List (List PageImage)) (unlinkOk : Bool)
    (h : strEndsWith (strToLower req.filename) ".pdf" = false) :
    analyzeDocument cfg jobId req ao doc pages unlinkOk =
      { response := .httpError 400 "Only PDF files are supported"
        tempFileCreated := false, tempFileFinal := false, tempBytesWritten := 0
        outputDirCreated := false, analysisAttempted := false, artifactWrites := [] } := by
  have hcore := core_invalid cfg jobId req ao doc pages h
  simp [analyzeDocument, hcore]

/-- C4 witness: uploading notes.txt is rejected with no side effects. -/
theorem invalid_extension_rejected_before_io_witness :
    (strEndsWith (strToLower "notes.txt") ".pdf" = false)
    ∧ analyzeDocument cfgEx "j1" { filename := "notes.txt", chunks := [3] }
        .ok docEx pagesEx true =
      { response := .httpError 400 "Only PDF files are supported"
        tempFileCreated := false, tempFileFinal := false, tempBytesWritten := 0
        outputDirCreated := false, analysisAttempted := false, artifactWrites := [] } :=
  ⟨by decide,
    invalid_extension_rejected_before_io cfgEx "j1"
      { filename := "notes.txt", chunks := [3] } .ok docEx pagesEx true (by decide)⟩

/-- C5 (confirmed): when some prefix of the streamed chunks pushes the
running byte count over the size limit, the request aborts with the 413
payload-too-large error: no output directory is created, no analysis is
attempted, the bytes on disk never exceeded the limit (the offending chunk
was discarded, not written), and the temp file does not survive the request
(when the unlink itself succeeds). -/
theorem oversize_upload_aborted (cfg : Config) (jobId : String)
    (req : UploadRequest) (ao : AnalyzeOutcome) (doc : DocModel)
    (pages : List (List PageImage))
    (hExt : strEndsWith (strToLower req.filename) ".pdf" = true)
    (hOver : ∃ k, sizeLimitBytes cfg < (req.chunks.take k).sum) :
    (analyzeDocument cfg jobId req ao doc pages true).response =
        .httpError 413 ("File size exceeds " ++ toString cfg.maxFileSizeMB ++ "MB limit")
    ∧ (analyzeDocument cfg jobId req ao doc pages true).outputDirCreated = false
    ∧ (analyzeDocument cfg jobId req ao doc pages true).analysisAttempted = false
    ∧ (analyzeDocument cfg jobId req ao doc pages true).tempBytesWritten
        ≤ sizeLimitBytes cfg
    ∧ (analyzeDocument cfg jobId req ao doc pages true).tempFileFinal = false := by
  have hover0 : ∃ k, sizeLimitBytes cfg < 0 + (req.chunks.take k).sum := by
    simpa using hOver
  obtain ⟨w, hTL⟩ :=
    streamLoop_overflow (sizeLimitBytes cfg) req.chunks 0 0 (Nat.zero_le _) hover0
  have hw : w ≤ sizeLimitBytes cfg := by
    have hle := streamLoop_written_le (sizeLimitBytes cfg) req.chunks 0 0 le_rfl (Nat.zero_le _)
    rw [hTL] at hle
    simpa [writtenOf] using hle
  have hcore := core_tooLarge cfg jobId req ao doc pages w hExt hTL
  refine ⟨?_, ?_, ?_, ?_, ?_⟩ <;> simp [analyzeDocument, hcore, hw]

/-- C5 witness: with a zero-byte limit, a one-chunk upload of one byte is
rejected with 413. -/
theorem oversize_upload_aborted_witness :
    (strEndsWith (strToLower "report.pdf") ".pdf" = true)
    ∧ (∃ k, sizeLimitBytes cfg0 < (([1] : List Nat).take k).sum)
    ∧ (analyzeDocument cfg0 "j1" { filename := "report.pdf", chunks := [1] }
        .ok docEx pagesEx true).response =
      .httpError 413 ("File size exceeds " ++ toString cfg0.maxFileSizeMB ++ "MB limit") :=
  ⟨by decide, ⟨1, by decide⟩,
    (oversize_upload_aborted cfg0 "j1" { filename := "report.pdf", chunks := [1] }
      .ok docEx pagesEx (by decide) ⟨1, by decide⟩).1⟩

/-- C6 (confirmed): on every exit path the finally block leaves no temp
file behind when the unlink succeeds (in particular whenever the temp file
was created, fully or partially written); and the outcome of the unlink
never changes the response the caller receives. -/
theorem temp_cleanup_every_exit_path (cfg : Config) (jobId : String)
    (req : UploadRequest) (ao : AnalyzeOutcome) (doc : DocModel)
    (pages : List (List PageImage)) :
    (analyzeDocument cfg jobId req ao doc pages true).tempFileFinal = false
    ∧ (analyzeDocument cfg jobId req ao doc pages true).response
        = (analyzeDocument cfg jobId req ao doc pages false).response := by
  constructor
  · simp [analyzeDocument]
  · rfl

/-- C10 (confirmed): the bytes written to the temp file never exceed the
size limit, and they are always the sum of a whole prefix of the chunk
sizes: the size check runs before each write, so the chunk that pushes the
running count over the limit is discarded, never written. -/
theorem temp_bytes_never_exceed_limit (cfg : Config) (jobId : String)
    (req : UploadRequest) (ao : AnalyzeOutcome) (doc : DocModel)
    (pages : List (List PageImage)) (unlinkOk : Bool) :
    (analyzeDocument cfg jobId req ao doc pages unlinkOk).tempBytesWritten
        ≤ sizeLimitBytes cfg
    ∧ ∃ k, (analyzeDocument cfg jobId req ao doc pages unlinkOk).tempBytesWritten
        = (req.chunks.take k).sum := by
  have hbytes : (analyzeDocument cfg jobId req ao doc pages unlinkOk).tempBytesWritten
      = (analyzeDocumentCore cfg jobId req ao doc pages).tempBytesWritten := rfl
  by_cases hExt : strEndsWith (strToLower req.filename) ".pdf" = true
  · rcases hstream : streamLoop (sizeLimitBytes cfg) 0 0 req.chunks with w | w
    · have hcore := core_saved cfg jobId req ao doc pages w hExt hstream
      have hle := streamLoop_written_le (sizeLimitBytes cfg) req.chunks 0 0 le_rfl (Nat.zero_le _)
      obtain ⟨k, hk⟩ := streamLoop_written_take (sizeLimitBytes cfg) req.chunks 0 0
      rw [hstream] at hle hk
      simp only [writtenOf] at hle hk
      constructor
      · rw [hbytes, hcore]
        exact hle
      · refine ⟨k, ?_⟩
        rw [hbytes, hcore]
        simpa using hk
    · have hcore := core_tooLarge cfg jobId req ao doc pages w hExt hstream
      have hle := streamLoop_written_le (sizeLimitBytes cfg) req.chunks 0 0 le_rfl (Nat.zero_le _)
      obtain ⟨k, hk⟩ := streamLoop_written_take (sizeLimitBytes cfg) req.chunks 0 0
      rw [hstream] at hle hk
      simp only [writtenOf] at hle hk
      constructor
      · rw [hbytes, hcore]
        exact hle
      · refine ⟨k, ?_⟩
        rw [hbytes, hcore]
        simpa using hk
  · have hfalse : strEndsWith (strToLower req.filename) ".pdf" = false := by
      simpa using hExt
    have hcore := core_invalid cfg jobId req ao doc pages hfalse
    constructor
    · rw [hbytes, hcore]
      exact Nat.zero_le _
    · refine ⟨0, ?_⟩
      rw [hbytes, hcore]
      simp
